import Mathlib

/-!
Verification development for the WebRTC signaling server (src/index.js).

The server keeps two global JavaScript objects:
  rooms           : roomId -> array of socket ids
  userVideoStates : roomId -> (userId -> bool)
and registers socket.io event handlers.  The handlers for offer, answer,
ice-candidate, videoStateChange, midi-message and the room-scoped disconnect
are registered inside the join-room callback, once per successful join-room,
each closure capturing the roomId of that join.

Modelling conventions:
* JavaScript objects used as string-keyed dictionaries are embedded as
  insertion-ordered association lists: property assignment keeps the position
  of an existing key and appends a new key at the end, property delete removes
  the key, lookup returns the binding of the key if present.
* All values stored in rooms are arrays (truthy, even when empty), so the
  code's truthiness test on rooms[roomId] coincides with key presence.
* A JavaScript TypeError from writing or deleting a property of undefined
  (e.g. userVideoStates[roomId][socket.id] when userVideoStates[roomId] is
  absent) is embedded as the result none.
* socket.emit(ev, p) is a message addressed to the sender; io.to(x).emit is a
  message addressed to [x]; socket.to(roomId).emit is a message addressed to
  the sockets currently subscribed to roomId other than the sender, which for
  every state the server reaches coincides with the registry member list of
  roomId minus the sender (both are updated exactly at join and disconnect),
  and is embedded as that list.
* The number of registered copies of the per-join handlers of a socket is
  tracked in joinCtx: the ordered list of roomIds captured by the closures
  registered by each successful join-room of that socket.  An inbound event
  runs each registered copy in registration order.
* On disconnect, socket.io runs the listeners in registration order: the
  general disconnect handler (registered at connection time) first, then the
  room-scoped handlers, one per successful join-room.
-/

def getOpt {α : Type} : List (String × α) → String → Option α
  | [], _ => none
  | (k', v) :: rest, k => if k' = k then some v else getOpt rest k

def setK {α : Type} : List (String × α) → String → α → List (String × α)
  | [], k, v => [(k, v)]
  | (k', v') :: rest, k, v =>
    if k' = k then (k, v) :: rest else (k', v') :: setK rest k v

def delK {α : Type} (m : List (String × α)) (k : String) : List (String × α) :=
  m.filter (fun p => p.1 ≠ k)

def getD {α : Type} (m : List (String × α)) (k : String) (d : α) : α :=
  (getOpt m k).getD d

def hasKey {α : Type} (m : List (String × α)) (k : String) : Bool :=
  (getOpt m k).isSome

/-- Payloads of the outbound wire messages emitted by the server. -/
inductive Payload where
  | roomExists (flag : Bool)
  | roomCreated (roomId : String)
  | noData
  | allUsers (ids : List String)
  | initialVideoStates (states : List (String × Option Bool))
  | userJoined (id : String)
  | offerOut (sdp : String) (caller : String)
  | answerOut (sdp : String) (caller : String)
  | iceOut (candidate : String) (src : String)
  | remoteVideo (userId : String) (videoEnabled : Bool)
  | remoteMidi (userId ty note velocity timestamp : String)
  | userDisconnected (id : String)
  deriving DecidableEq

/-- One outbound delivery instruction: the target socket ids, the event name
on the wire, and the payload. -/
structure Msg where
  recipients : List String
  event : String
  payload : Payload
  deriving DecidableEq

/-- The server's global mutable state: the two registry objects of
src/index.js plus, per socket, the list of roomIds captured by the handler
closures registered inside each successful join-room. -/
structure ServerState where
  rooms : List (String × List String)
  userVideoStates : List (String × List (String × Bool))
  joinCtx : List (String × List String)
  deriving DecidableEq

/-- Payloads of the inbound wire messages the server listens for. -/
inductive EvPayload where
  | pRoom (roomId : String)
  | pTarget (target : String) (data : String)
  | pVideo (videoEnabled : Bool)
  | pMidi (roomId ty note velocity timestamp : String)
  deriving DecidableEq

/-- Handler of check-room: replies to the sender with the existence flag. -/
def checkRoom (st : ServerState) (s rid : String) : List Msg :=
  [⟨[s], "room-exists", Payload.roomExists (hasKey st.rooms rid)⟩]

/-- Handler of create-room: inserts an empty room (and its empty video-state
object) when the id is absent, and always acks room-created to the sender. -/
def createRoom (st : ServerState) (s rid : String) : ServerState × List Msg :=
  if hasKey st.rooms rid then
    (st, [⟨[s], "room-created", Payload.roomCreated rid⟩])
  else
    ({ st with rooms := setK st.rooms rid [],
               userVideoStates := setK st.userVideoStates rid [] },
     [⟨[s], "room-created", Payload.roomCreated rid⟩])

/-- Handler of join-room.  On an absent room it emits room-not-found to the
sender and stops.  Otherwise it adds the sender to the member list when not
yet present (with video flag true), emits the snapshot of the other members
and their flags to the sender, broadcasts user-joined, and registers one more
copy of the per-join handlers (recorded in joinCtx). -/
def joinRoom (st : ServerState) (s rid : String) : Option (ServerState × List Msg) :=
  match getOpt st.rooms rid with
  | none => some (st, [⟨[s], "room-not-found", Payload.noData⟩])
  | some members =>
    let st2opt : Option ServerState :=
      if s ∈ members then some st
      else
        match getOpt st.userVideoStates rid with
        | none => none
        | some vsR =>
          some { st with
                   rooms := setK st.rooms rid (members ++ [s]),
                   userVideoStates := setK st.userVideoStates rid (setK vsR s true) }
    match st2opt with
    | none => none
    | some st2 =>
      let others := (getD st2.rooms rid []).filter (fun u => u ≠ s)
      let vsRoom := getD st2.userVideoStates rid []
      let snapshot := others.map (fun u => (u, getOpt vsRoom u))
      let st3 := { st2 with joinCtx := setK st2.joinCtx s (getD st2.joinCtx s [] ++ [rid]) }
      some (st3, [⟨[s], "all-users", Payload.allUsers others⟩,
                  ⟨[s], "initial-video-states", Payload.initialVideoStates snapshot⟩,
                  ⟨others, "user-joined", Payload.userJoined s⟩])

/-- Handler copies of offer: each registered copy forwards the sdp to the
target with the sender as caller; one copy exists per successful join-room. -/
def handleOffer (st : ServerState) (s target sdp : String) : List Msg :=
  (getD st.joinCtx s []).map (fun _ => ⟨[target], "offer", Payload.offerOut sdp s⟩)

/-- Handler copies of answer, symmetric to offer. -/
def handleAnswer (st : ServerState) (s target sdp : String) : List Msg :=
  (getD st.joinCtx s []).map (fun _ => ⟨[target], "answer", Payload.answerOut sdp s⟩)

/-- Handler copies of ice-candidate, symmetric to offer. -/
def handleIce (st : ServerState) (s target cand : String) : List Msg :=
  (getD st.joinCtx s []).map (fun _ => ⟨[target], "ice-candidate", Payload.iceOut cand s⟩)

/-- One registered videoStateChange closure with captured roomId rid:
writes userVideoStates[rid][s] unguarded (none embeds the TypeError thrown
when userVideoStates[rid] is absent) and broadcasts remoteVideoStateChange to
the other members of rid. -/
def vscClosure (rid s : String) (b : Bool) (st : ServerState) : Option (ServerState × List Msg) :=
  match getOpt st.userVideoStates rid with
  | none => none
  | some vsR =>
    some (⟨st.rooms, setK st.userVideoStates rid (setK vsR s b), st.joinCtx⟩,
          [⟨(getD st.rooms rid []).filter (fun u => u ≠ s),
            "remoteVideoStateChange", Payload.remoteVideo s b⟩])

/-- Fold step running the registered videoStateChange closures in order. -/
def vscFold (s : String) (b : Bool) (acc : Option (ServerState × List Msg)) (rid : String) :
    Option (ServerState × List Msg) :=
  match acc with
  | none => none
  | some r =>
    match vscClosure rid s b r.1 with
    | none => none
    | some r' => some (r'.1, r.2 ++ r'.2)

/-- Inbound videoStateChange: runs every registered closure (one per
successful join-room of the sender, each with its captured roomId). -/
def handleVideoStateChange (st : ServerState) (s : String) (b : Bool) :
    Option (ServerState × List Msg) :=
  (getD st.joinCtx s []).foldl (vscFold s b) (some (st, []))

/-- Handler copies of midi-message: each registered copy rebroadcasts to the
members of the roomId named in the payload, excluding the sender. -/
def handleMidi (st : ServerState) (s rid ty note vel ts : String) : List Msg :=
  (getD st.joinCtx s []).map
    (fun _ => ⟨(getD st.rooms rid []).filter (fun u => u ≠ s),
               "remote-midi-message", Payload.remoteMidi s ty note vel ts⟩)

/-- The general disconnect handler's update of userVideoStates for one room:
the user's video entry is deleted behind the existence check the code
performs on userVideoStates[roomId]. -/
def gdVs (st : ServerState) (s rid : String) : List (String × List (String × Bool)) :=
  match getOpt st.userVideoStates rid with
  | some vsR => setK st.userVideoStates rid (delK vsR s)
  | none => st.userVideoStates

/-- One iteration body of that loop: remove the socket from the member list,
broadcast user-disconnected to the remaining members, and delete the room
(and its video-state object) when it became empty. -/
def gdStep (s : String) (acc : ServerState × List Msg) (rid : String) : ServerState × List Msg :=
  match getOpt acc.1.rooms rid with
  | none => acc
  | some members =>
    if s ∈ members then
      if (members.filter (fun u => u ≠ s)).isEmpty then
        (⟨delK (setK acc.1.rooms rid (members.filter (fun u => u ≠ s))) rid,
          delK (gdVs acc.1 s rid) rid, acc.1.joinCtx⟩,
         acc.2 ++ [⟨members.filter (fun u => u ≠ s), "user-disconnected",
                    Payload.userDisconnected s⟩])
      else
        (⟨setK acc.1.rooms rid (members.filter (fun u => u ≠ s)),
          gdVs acc.1 s rid, acc.1.joinCtx⟩,
         acc.2 ++ [⟨members.filter (fun u => u ≠ s), "user-disconnected",
                    Payload.userDisconnected s⟩])
    else acc

/-- One registered room-scoped disconnect closure with captured roomId rid:
if the room still exists it removes the socket from the member list, deletes
the video entry unguarded (none embeds the TypeError when the room's
video-state object is absent), broadcasts user-disconnected to the remaining
members, and deletes the room when it became empty. -/
def roomDisconnect (rid : String) (st : ServerState) (s : String) :
    Option (ServerState × List Msg) :=
  match getOpt st.rooms rid with
  | none => some (st, [])
  | some members =>
    match getOpt st.userVideoStates rid with
    | none => none
    | some vsR =>
      if (members.filter (fun u => u ≠ s)).isEmpty then
        some (⟨delK (setK st.rooms rid (members.filter (fun u => u ≠ s))) rid,
               delK (setK st.userVideoStates rid (delK vsR s)) rid, st.joinCtx⟩,
              [⟨members.filter (fun u => u ≠ s), "user-disconnected",
                Payload.userDisconnected s⟩])
      else
        some (⟨setK st.rooms rid (members.filter (fun u => u ≠ s)),
               setK st.userVideoStates rid (delK vsR s), st.joinCtx⟩,
              [⟨members.filter (fun u => u ≠ s), "user-disconnected",
                Payload.userDisconnected s⟩])

/-- Fold step running the registered room-scoped disconnect closures. -/
def rdFold (s : String) (acc : Option (ServerState × List Msg)) (rid : String) :
    Option (ServerState × List Msg) :=
  match acc with
  | none => none
  | some r =>
    match roomDisconnect rid r.1 s with
    | none => none
    | some r' => some (r'.1, r.2 ++ r'.2)

/-- Disconnect of a socket: socket.io runs the general disconnect handler
first (registered at connection time), then one room-scoped closure per
successful join-room, in registration order; afterwards the socket object and
its listeners are gone (its joinCtx entry is dropped). -/
def handleDisconnect (st : ServerState) (s : String) : Option (ServerState × List Msg) :=
  match (getD st.joinCtx s []).foldl (rdFold s)
      (some ((st.rooms.map Prod.fst).foldl (gdStep s) (st, []))) with
  | none => none
  | some r => some (⟨r.1.rooms, r.1.userVideoStates, delK r.1.joinCtx s⟩, r.2)

/-- Dispatch of an inbound socket message by wire event name, as registered by
socket.on.  An event name with no listener is dropped (no effect, no reply).
Payload shapes other than the one the listener destructures do not occur in
the claims and are not modelled. -/
def dispatch (st : ServerState) (s ev : String) (p : EvPayload) :
    Option (ServerState × List Msg) :=
  if ev = "check-room" then
    match p with
    | EvPayload.pRoom rid => some (st, checkRoom st s rid)
    | _ => some (st, [])
  else if ev = "create-room" then
    match p with
    | EvPayload.pRoom rid => some (createRoom st s rid)
    | _ => some (st, [])
  else if ev = "join-room" then
    match p with
    | EvPayload.pRoom rid => joinRoom st s rid
    | _ => some (st, [])
  else if ev = "offer" then
    match p with
    | EvPayload.pTarget t d => some (st, handleOffer st s t d)
    | _ => some (st, [])
  else if ev = "answer" then
    match p with
    | EvPayload.pTarget t d => some (st, handleAnswer st s t d)
    | _ => some (st, [])
  else if ev = "ice-candidate" then
    match p with
    | EvPayload.pTarget t d => some (st, handleIce st s t d)
    | _ => some (st, [])
  else if ev = "videoStateChange" then
    match p with
    | EvPayload.pVideo b => handleVideoStateChange st s b
    | _ => some (st, [])
  else if ev = "midi-message" then
    match p with
    | EvPayload.pMidi rid ty note vel ts => some (st, handleMidi st s rid ty note vel ts)
    | _ => some (st, [])
  else some (st, [])

/-- An externally triggered server event: an inbound message from a socket,
or a socket disconnect. -/
inductive Op where
  | msg (sender ev : String) (p : EvPayload)
  | disc (sender : String)
  deriving DecidableEq

/-- One step of the server on an external event. -/
def step (st : ServerState) : Op → Option (ServerState × List Msg)
  | Op.msg s ev p => dispatch st s ev p
  | Op.disc s => handleDisconnect st s

/-- Run a sequence of external events from a state (messages discarded). -/
def runOps (st : ServerState) : List Op → Option ServerState
  | [] => some st
  | op :: rest =>
    match step st op with
    | none => none
    | some r => runOps r.1 rest

/-- The state of the freshly started server: no rooms, no video state, no
registered per-join handlers. -/
def initState : ServerState := ⟨[], [], []⟩

/-- The id s is in the member list of room rid (decidable form). -/
def inRoomB (st : ServerState) (s rid : String) : Bool :=
  match getOpt st.rooms rid with
  | some m => decide (s ∈ m)
  | none => false

/-- The roomId of a join-room message sent by s, if op is one. -/
def opJoinOf (s : String) : Op → Option String
  | Op.msg s' ev (EvPayload.pRoom rid) =>
    if s' = s ∧ ev = "join-room" then some rid else none
  | _ => none

/-- The roomIds for which s sent a join-room message in the event list. -/
def sentJoins (s : String) (ops : List Op) : List String :=
  ops.filterMap (opJoinOf s)

/-- After-to-before relation of the rooms object across disconnect
processing: every surviving member list existed before, up to removal of the
disconnected socket. -/
def roomsShrink (s : String) (R R' : List (String × List String)) : Prop :=
  ∀ rid m', getOpt R' rid = some m' →
    ∃ m, getOpt R rid = some m ∧ (m' = m ∨ m' = m.filter (fun u => u ≠ s))

/-- A two-member room, both video flags set, both sockets having joined once:
the state reached by create-room r, join-room r by a, join-room r by b. -/
def stPair : ServerState :=
  ⟨[("r", ["a", "b"])],
   [("r", [("a", true), ("b", true)])],
   [("a", ["r"]), ("b", ["r"])]⟩

/-- A one-member room, reached by create-room r then join-room r by a. -/
def stSolo : ServerState :=
  ⟨[("r", ["a"])], [("r", [("a", true)])], [("a", ["r"])]⟩

/-- A state with a registered videoStateChange closure for room r but no room
r in either registry object: exercises the unguarded write of the handler. -/
def stGhost : ServerState := ⟨[], [], [("s", ["r"])]⟩

/-- Event list in which x creates two rooms and joins both. -/
def opsTwoJoins : List Op :=
  [Op.msg "x" "create-room" (EvPayload.pRoom "a"),
   Op.msg "x" "create-room" (EvPayload.pRoom "b"),
   Op.msg "x" "join-room" (EvPayload.pRoom "a"),
   Op.msg "x" "join-room" (EvPayload.pRoom "b")]

/-- Event list in which x and y create and join the single room a. -/
def opsOneRoom : List Op :=
  [Op.msg "x" "create-room" (EvPayload.pRoom "a"),
   Op.msg "x" "join-room" (EvPayload.pRoom "a"),
   Op.msg "y" "join-room" (EvPayload.pRoom "a")]

/-! ### Association list lemmas -/

theorem getOpt_setK_self {α : Type} (m : List (String × α)) (k : String) (v : α) :
    getOpt (setK m k v) k = some v := by
  induction m with
  | nil => simp [setK, getOpt]
  | cons p rest ih =>
    obtain ⟨k', v'⟩ := p
    by_cases h : k' = k
    · simp [setK, h, getOpt]
    · simp [setK, h, getOpt, ih]

theorem getOpt_setK_ne {α : Type} (m : List (String × α)) (k k' : String) (v : α)
    (h : k' ≠ k) : getOpt (setK m k v) k' = getOpt m k' := by
  induction m with
  | nil => simp [setK, getOpt, Ne.symm h]
  | cons p rest ih =>
    obtain ⟨a, b⟩ := p
    by_cases ha : a = k
    · subst ha
      simp [setK, getOpt, Ne.symm h]
    · simp only [setK, if_neg ha]
      by_cases ha' : a = k'
      · simp [getOpt, ha']
      · simp [getOpt, ha', ih]

theorem getOpt_delK_self {α : Type} (m : List (String × α)) (k : String) :
    getOpt (delK m k) k = none := by
  induction m with
  | nil => simp [delK, getOpt]
  | cons p rest ih =>
    obtain ⟨a, b⟩ := p
    by_cases ha : a = k
    · simpa [delK, List.filter, ha] using ih
    · simpa [delK, List.filter, ha, getOpt] using ih

theorem getOpt_delK_ne {α : Type} (m : List (String × α)) (k k' : String)
    (h : k' ≠ k) : getOpt (delK m k) k' = getOpt m k' := by
  induction m with
  | nil => simp [delK, getOpt]
  | cons p rest ih =>
    obtain ⟨a, b⟩ := p
    by_cases ha : a = k
    · subst ha
      have : a ≠ k' := fun hh => h hh.symm
      simpa [delK, List.filter, getOpt, this] using ih
    · by_cases ha' : a = k'
      · subst ha'
        simp [delK, List.filter, ha, getOpt]
      · simpa [delK, List.filter, ha, getOpt, ha'] using ih

theorem delK_eq_self_of_none {α : Type} (m : List (String × α)) (k : String)
    (h : getOpt m k = none) : delK m k = m := by
  induction m with
  | nil => rfl
  | cons p rest ih =>
    obtain ⟨a, b⟩ := p
    by_cases ha : a = k
    · simp [getOpt, ha] at h
    · simp only [getOpt, if_neg ha] at h
      have hr := ih h
      simp only [delK] at hr ⊢
      rw [List.filter_cons, if_pos (by simp [ha]), hr]

theorem delK_delK {α : Type} (m : List (String × α)) (k : String) :
    delK (delK m k) k = delK m k :=
  delK_eq_self_of_none _ _ (getOpt_delK_self m k)

theorem mem_keys_of_getOpt {α : Type} (m : List (String × α)) (k : String) (v : α)
    (h : getOpt m k = some v) : k ∈ m.map Prod.fst := by
  induction m with
  | nil => simp [getOpt] at h
  | cons p rest ih =>
    obtain ⟨a, b⟩ := p
    by_cases ha : a = k
    · simp [ha]
    · simp only [getOpt, if_neg ha] at h
      simp [ih h]

/-! ### Generic list helpers -/

theorem filter_ne_self_of_not_mem (l : List String) (s : String) (h : s ∉ l) :
    l.filter (fun u => u ≠ s) = l := by
  induction l with
  | nil => rfl
  | cons a rest ih =>
    have ha : a ≠ s := fun e => h (e ▸ List.mem_cons_self a rest)
    have hr : s ∉ rest := fun e => h (List.mem_cons_of_mem a e)
    rw [List.filter_cons, if_pos (by simp [ha]), ih hr]

theorem filter_idem {α : Type} (p : α → Bool) (l : List α) :
    (l.filter p).filter p = l.filter p :=
  List.filter_eq_self.mpr (fun _ ha => List.of_mem_filter ha)

theorem map_const_eq_replicate {α β : Type} (l : List α) (b : β) :
    l.map (fun _ => b) = List.replicate l.length b := by
  induction l with
  | nil => rfl
  | cons a rest ih => simp [List.replicate, ih]

theorem mem_of_filter_ne_nil_and_empty (m : List String) (s : String)
    (hne : m ≠ []) (hf : m.filter (fun u => u ≠ s) = []) : s ∈ m := by
  cases m with
  | nil => exact absurd rfl hne
  | cons a rest =>
    by_cases ha : a = s
    · exact ha ▸ List.mem_cons_self a rest
    · rw [List.filter_cons, if_pos (by simp [ha])] at hf
      exact absurd hf (by simp)

theorem nodup_append_single (m : List String) (s : String)
    (hnd : m.Nodup) (hs : s ∉ m) : (m ++ [s]).Nodup := by
  rw [List.nodup_append]
  exact ⟨hnd, List.nodup_singleton s, fun a ha hb => hs ((List.mem_singleton.mp hb) ▸ ha)⟩

/-! ### Dispatch unfolding equations, one per registered event name -/

theorem dispatch_check (st : ServerState) (s rid : String) :
    dispatch st s "check-room" (EvPayload.pRoom rid) = some (st, checkRoom st s rid) := by
  simp [dispatch]

theorem dispatch_create (st : ServerState) (s rid : String) :
    dispatch st s "create-room" (EvPayload.pRoom rid) = some (createRoom st s rid) := by
  simp [dispatch]

theorem dispatch_join (st : ServerState) (s rid : String) :
    dispatch st s "join-room" (EvPayload.pRoom rid) = joinRoom st s rid := by
  simp [dispatch]

theorem dispatch_offer (st : ServerState) (s t d : String) :
    dispatch st s "offer" (EvPayload.pTarget t d) = some (st, handleOffer st s t d) := by
  simp [dispatch]

theorem dispatch_answer (st : ServerState) (s t d : String) :
    dispatch st s "answer" (EvPayload.pTarget t d) = some (st, handleAnswer st s t d) := by
  simp [dispatch]

theorem dispatch_ice (st : ServerState) (s t d : String) :
    dispatch st s "ice-candidate" (EvPayload.pTarget t d) = some (st, handleIce st s t d) := by
  simp [dispatch]

theorem dispatch_vsc (st : ServerState) (s : String) (b : Bool) :
    dispatch st s "videoStateChange" (EvPayload.pVideo b) = handleVideoStateChange st s b := by
  simp [dispatch]

theorem dispatch_midi (st : ServerState) (s rid ty note vel ts : String) :
    dispatch st s "midi-message" (EvPayload.pMidi rid ty note vel ts) =
      some (st, handleMidi st s rid ty note vel ts) := by
  simp [dispatch]

/-! ### Claim C3 -/

/-- C3: a join-room for a roomId not present in the registry makes the server
send room-not-found to the sender only, leaves the whole state (registry and
registered handlers) unchanged, and sends no other message. -/
theorem c3_join_nonexistent (st : ServerState) (s rid : String)
    (h : getOpt st.rooms rid = none) :
    dispatch st s "join-room" (EvPayload.pRoom rid) =
      some (st, [⟨[s], "room-not-found", Payload.noData⟩]) := by
  rw [dispatch_join]
  unfold joinRoom
  rw [h]

/-- Witness for C3 at a concrete state: joining the absent room z from the
one-room state stSolo. -/
theorem c3_join_nonexistent_witness :
    dispatch stSolo "b" "join-room" (EvPayload.pRoom "z") =
      some (stSolo, [⟨["b"], "room-not-found", Payload.noData⟩]) :=
  c3_join_nonexistent stSolo "b" "z" (by decide)

/-! ### Claim C7 -/

/-- C7 counterexample: create-room with the empty roomId is not aborted and no
InvalidRoomId error is reported; the empty-named room is created and the
normal room-created ack is sent. -/
theorem c7_empty_roomid_cex :
    dispatch initState "x" "create-room" (EvPayload.pRoom "") =
      some (⟨[("", [])], [("", [])], []⟩,
            [⟨["x"], "room-created", Payload.roomCreated ""⟩]) := by
  decide

/-- C7 amended: create-room performs no validation of the roomId at all; for
every roomId, including the empty string, the room exists afterwards and the
only reply is the room-created ack to the sender (no error event exists in
the code). -/
theorem c7_create_no_validation (st : ServerState) (s rid : String) :
    ∃ st', dispatch st s "create-room" (EvPayload.pRoom rid) =
        some (st', [⟨[s], "room-created", Payload.roomCreated rid⟩]) ∧
      hasKey st'.rooms rid = true ∧ st'.joinCtx = st.joinCtx := by
  rw [dispatch_create]
  by_cases hk : hasKey st.rooms rid
  · exact ⟨st, by simp [createRoom, hk], hk, rfl⟩
  · refine ⟨⟨setK st.rooms rid [], setK st.userVideoStates rid [], st.joinCtx⟩,
      by simp [createRoom, hk], ?_, rfl⟩
    simp [hasKey, getOpt_setK_self]

/-! ### Claim C9 -/

/-- C9 counterexample: an offer with target a from a connected socket that
never joined a room produces no delivery at all (zero events, not exactly
one). -/
theorem c9_no_join_no_delivery_cex :
    dispatch initState "b" "offer" (EvPayload.pTarget "a" "sdp1") =
      some (initState, []) := by
  decide

/-- C9 amended: offer, answer and ice-candidate are always addressed to the
target only (no other connection is ever a recipient), but the number of
deliveries is one per successful join-room of the sender, so it is exactly
one precisely when the sender has processed exactly one join-room. -/
theorem c9_targeted_per_join :
    (∀ (st : ServerState) (s t d : String),
       dispatch st s "offer" (EvPayload.pTarget t d) =
         some (st, List.replicate (getD st.joinCtx s []).length
                     ⟨[t], "offer", Payload.offerOut d s⟩)) ∧
    (∀ (st : ServerState) (s t d : String),
       dispatch st s "answer" (EvPayload.pTarget t d) =
         some (st, List.replicate (getD st.joinCtx s []).length
                     ⟨[t], "answer", Payload.answerOut d s⟩)) ∧
    (∀ (st : ServerState) (s t d : String),
       dispatch st s "ice-candidate" (EvPayload.pTarget t d) =
         some (st, List.replicate (getD st.joinCtx s []).length
                     ⟨[t], "ice-candidate", Payload.iceOut d s⟩)) ∧
    (∀ (st : ServerState) (s t d : String), (getD st.joinCtx s []).length = 1 →
       dispatch st s "offer" (EvPayload.pTarget t d) =
         some (st, [⟨[t], "offer", Payload.offerOut d s⟩])) := by
  refine ⟨?_, ?_, ?_, ?_⟩
  · intro st s t d
    rw [dispatch_offer]
    unfold handleOffer
    rw [map_const_eq_replicate]
  · intro st s t d
    rw [dispatch_answer]
    unfold handleAnswer
    rw [map_const_eq_replicate]
  · intro st s t d
    rw [dispatch_ice]
    unfold handleIce
    rw [map_const_eq_replicate]
  · intro st s t d h1
    rw [dispatch_offer]
    unfold handleOffer
    obtain ⟨a, ha⟩ := List.length_eq_one.mp h1
    rw [ha]
    rfl

/-- Witness for C9 amended at a concrete state: a sender with exactly one
successful join-room delivers exactly one offer, to the target only. -/
theorem c9_targeted_per_join_witness :
    dispatch stSolo "a" "offer" (EvPayload.pTarget "t" "sdp9") =
      some (stSolo, [⟨["t"], "offer", Payload.offerOut "sdp9" "a"⟩]) :=
  c9_targeted_per_join.2.2.2 stSolo "a" "t" "sdp9" (by decide)

/-! ### Claim C10 -/

/-- C10: the offer, answer, ice-candidate, videoStateChange and midi-message
handlers exist only as copies registered inside the join-room handler after
the room-existence check: with no successful join-room the inbound events
produce no delivery at all; each successful join-room adds one registered
copy; a failed join-room adds none; and a single inbound offer is forwarded
to its target once per successful join-room. -/
theorem c10_per_join_registration :
    (∀ (st : ServerState) (s t d : String), getD st.joinCtx s [] = [] →
       dispatch st s "offer" (EvPayload.pTarget t d) = some (st, []) ∧
       dispatch st s "answer" (EvPayload.pTarget t d) = some (st, []) ∧
       dispatch st s "ice-candidate" (EvPayload.pTarget t d) = some (st, []) ∧
       (∀ b, dispatch st s "videoStateChange" (EvPayload.pVideo b) = some (st, [])) ∧
       (∀ rid ty note vel ts,
          dispatch st s "midi-message" (EvPayload.pMidi rid ty note vel ts) =
            some (st, []))) ∧
    (∀ (st : ServerState) (s rid : String) (members : List String) (st' : ServerState)
       (msgs : List Msg), getOpt st.rooms rid = some members →
       dispatch st s "join-room" (EvPayload.pRoom rid) = some (st', msgs) →
       getD st'.joinCtx s [] = getD st.joinCtx s [] ++ [rid]) ∧
    (∀ (st : ServerState) (s rid : String), getOpt st.rooms rid = none →
       ∃ msgs, dispatch st s "join-room" (EvPayload.pRoom rid) = some (st, msgs)) ∧
    (∀ (st : ServerState) (s t d : String),
       dispatch st s "offer" (EvPayload.pTarget t d) =
         some (st, List.replicate (getD st.joinCtx s []).length
                     ⟨[t], "offer", Payload.offerOut d s⟩)) := by
  refine ⟨?_, ?_, ?_, ?_⟩
  · intro st s t d h0
    refine ⟨?_, ?_, ?_, ?_, ?_⟩
    · rw [dispatch_offer]; unfold handleOffer; rw [h0]; rfl
    · rw [dispatch_answer]; unfold handleAnswer; rw [h0]; rfl
    · rw [dispatch_ice]; unfold handleIce; rw [h0]; rfl
    · intro b
      rw [dispatch_vsc]; unfold handleVideoStateChange; rw [h0]; rfl
    · intro rid ty note vel ts
      rw [dispatch_midi]; unfold handleMidi; rw [h0]; rfl
  · intro st s rid members st' msgs hr h
    rw [dispatch_join] at h
    unfold joinRoom at h
    rw [hr] at h
    by_cases hs : s ∈ members
    · simp only [if_pos hs] at h
      injection h with h1
      injection h1 with hst hmsgs
      rw [← hst]
      simp [getD, getOpt_setK_self]
    · simp only [if_neg hs] at h
      cases hv : getOpt st.userVideoStates rid with
      | none => rw [hv] at h; exact absurd h (by simp)
      | some vsR =>
        rw [hv] at h
        simp only [] at h
        injection h with h1
        injection h1 with hst hmsgs
        rw [← hst]
        simp [getD, getOpt_setK_self]
  · intro st s rid h0
    refine ⟨[⟨[s], "room-not-found", Payload.noData⟩], ?_⟩
    rw [dispatch_join]
    unfold joinRoom
    rw [h0]
  · intro st s t d
    rw [dispatch_offer]
    unfold handleOffer
    rw [map_const_eq_replicate]

/-- Witness for C10 at concrete states: a never-joined socket gets nothing
delivered, and in the two-member room state the next join appends to the
registered contexts. -/
theorem c10_per_join_registration_witness :
    dispatch initState "q" "offer" (EvPayload.pTarget "a" "s1") = some (initState, []) ∧
    getD ((⟨[("r", ["a", "b", "c"])],
            [("r", [("a", true), ("b", true), ("c", true)])],
            [("a", ["r"]), ("b", ["r"]), ("c", ["r"])]⟩ : ServerState)).joinCtx "c" [] =
      getD stPair.joinCtx "c" [] ++ ["r"] :=
  ⟨(c10_per_join_registration.1 initState "q" "a" "s1" (by decide)).1,
   c10_per_join_registration.2.1 stPair "c" "r" ["a", "b"]
     ⟨[("r", ["a", "b", "c"])],
      [("r", [("a", true), ("b", true), ("c", true)])],
      [("a", ["r"]), ("b", ["r"]), ("c", ["r"])]⟩
     [⟨["c"], "all-users", Payload.allUsers ["a", "b"]⟩,
      ⟨["c"], "initial-video-states",
        Payload.initialVideoStates [("a", some true), ("b", some true)]⟩,
      ⟨["a", "b"], "user-joined", Payload.userJoined "c"⟩]
     (by decide) (by decide)⟩

/-! ### Claim C6 -/

/-- C6 counterexample: in the two-member room, an inbound event named
video-state-change has no listener and produces nothing, while the actual
handler listens on videoStateChange and broadcasts the event named
remoteVideoStateChange — neither wire name matches the claim. -/
theorem c6_event_name_cex :
    dispatch stPair "b" "video-state-change" (EvPayload.pVideo false) =
      some (stPair, []) ∧
    dispatch stPair "b" "videoStateChange" (EvPayload.pVideo false) =
      some (⟨[("r", ["a", "b"])], [("r", [("a", true), ("b", false)])],
             [("a", ["r"]), ("b", ["r"])]⟩,
            [⟨["a"], "remoteVideoStateChange", Payload.remoteVideo "b" false⟩]) :=
  ⟨by decide, by decide⟩

/-- C6 amended: for a sender with exactly one registered room context, the
inbound event is named videoStateChange (camelCase) with payload field
videoEnabled, and the server broadcasts to all other members of that room the
event named remoteVideoStateChange carrying the sender id and the flag, after
storing the flag. -/
theorem c6_video_broadcast (st : ServerState) (s rid : String) (b : Bool)
    (members : List String) (vsR : List (String × Bool))
    (hctx : getOpt st.joinCtx s = some [rid])
    (hr : getOpt st.rooms rid = some members)
    (hv : getOpt st.userVideoStates rid = some vsR) :
    dispatch st s "videoStateChange" (EvPayload.pVideo b) =
      some ({ st with userVideoStates := setK st.userVideoStates rid (setK vsR s b) },
            [⟨members.filter (fun u => u ≠ s), "remoteVideoStateChange",
              Payload.remoteVideo s b⟩]) := by
  rw [dispatch_vsc]
  unfold handleVideoStateChange
  rw [getD, hctx]
  simp [vscFold, vscClosure, hv, getD, hr]

/-- Witness for C6 amended in the two-member room state. -/
theorem c6_video_broadcast_witness :
    dispatch stPair "b" "videoStateChange" (EvPayload.pVideo true) =
      some (⟨[("r", ["a", "b"])], [("r", [("a", true), ("b", true)])],
             [("a", ["r"]), ("b", ["r"])]⟩,
            [⟨["a"], "remoteVideoStateChange", Payload.remoteVideo "b" true⟩]) :=
  c6_video_broadcast stPair "b" "r" true ["a", "b"] [("a", true), ("b", true)]
    (by decide) (by decide) (by decide)

/-! ### Claim C2 -/

/-- C2 counterexample: with a registered videoStateChange closure for room r
but room r absent from the registry, the handler is not a no-op: the
unguarded write userVideoStates[r][s] raises a TypeError (embedded none). -/
theorem c2_setvideo_raises_cex :
    dispatch stGhost "s" "videoStateChange" (EvPayload.pVideo true) = none := by
  decide

/-- C2 amended: the videoStateChange handler is unguarded.  For a sender
whose single registered context is rid: if the room's video-state object is
absent, the write raises (none) instead of being a defensive no-op; if
present, the sender's flag entry is written unconditionally — even when the
sender is not in the member list, creating state — and the change is
broadcast. -/
theorem c2_setvideo_unguarded (st : ServerState) (s rid : String) (b : Bool)
    (hctx : getOpt st.joinCtx s = some [rid]) :
    (getOpt st.userVideoStates rid = none →
       dispatch st s "videoStateChange" (EvPayload.pVideo b) = none) ∧
    (∀ vsR, getOpt st.userVideoStates rid = some vsR →
       dispatch st s "videoStateChange" (EvPayload.pVideo b) =
         some ({ st with userVideoStates := setK st.userVideoStates rid (setK vsR s b) },
               [⟨(getD st.rooms rid []).filter (fun u => u ≠ s),
                 "remoteVideoStateChange", Payload.remoteVideo s b⟩])) := by
  constructor
  · intro hnone
    rw [dispatch_vsc]
    unfold handleVideoStateChange
    rw [getD, hctx]
    simp [vscFold, vscClosure, hnone]
  · intro vsR hv
    rw [dispatch_vsc]
    unfold handleVideoStateChange
    rw [getD, hctx]
    simp [vscFold, vscClosure, hv, getD]

/-- Witness for C2 amended: the raising case at stGhost and the writing case
at stSolo (the broadcast goes to the empty remainder of the room). -/
theorem c2_setvideo_unguarded_witness :
    dispatch stGhost "s" "videoStateChange" (EvPayload.pVideo false) = none ∧
    dispatch stSolo "a" "videoStateChange" (EvPayload.pVideo false) =
      some (⟨[("r", ["a"])], [("r", [("a", false)])], [("a", ["r"])]⟩,
            [⟨[], "remoteVideoStateChange", Payload.remoteVideo "a" false⟩]) :=
  ⟨(c2_setvideo_unguarded stGhost "s" "r" false (by decide)).1 (by decide),
   (c2_setvideo_unguarded stSolo "a" "r" false (by decide)).2 [("a", true)] (by decide)⟩

/-! ### Claim C4 -/

/-- C4: join-room on an existing room.  A sender not yet a member is appended
with video flag true, receives all-users with exactly the other members and
initial-video-states with their flags, and the other members receive
user-joined with the sender id.  A repeated join-room by an existing member
sends the same style of snapshot (others only) and adds no duplicate
membership entry. -/
theorem c4_join_existing (st : ServerState) (s rid : String) (members : List String)
    (vsR : List (String × Bool))
    (hr : getOpt st.rooms rid = some members)
    (hv : getOpt st.userVideoStates rid = some vsR) :
    (s ∉ members →
       dispatch st s "join-room" (EvPayload.pRoom rid) =
         some ({ st with rooms := setK st.rooms rid (members ++ [s]),
                         userVideoStates := setK st.userVideoStates rid (setK vsR s true),
                         joinCtx := setK st.joinCtx s (getD st.joinCtx s [] ++ [rid]) },
               [⟨[s], "all-users", Payload.allUsers members⟩,
                ⟨[s], "initial-video-states",
                  Payload.initialVideoStates (members.map (fun u => (u, getOpt vsR u)))⟩,
                ⟨members, "user-joined", Payload.userJoined s⟩])) ∧
    (s ∈ members →
       dispatch st s "join-room" (EvPayload.pRoom rid) =
         some ({ st with joinCtx := setK st.joinCtx s (getD st.joinCtx s [] ++ [rid]) },
               [⟨[s], "all-users", Payload.allUsers (members.filter (fun u => u ≠ s))⟩,
                ⟨[s], "initial-video-states",
                  Payload.initialVideoStates ((members.filter (fun u => u ≠ s)).map
                    (fun u => (u, getOpt vsR u)))⟩,
                ⟨members.filter (fun u => u ≠ s), "user-joined",
                  Payload.userJoined s⟩])) := by
  constructor
  · intro hs
    rw [dispatch_join]
    unfold joinRoom
    rw [hr]
    have hoth : (members ++ [s]).filter (fun u => u ≠ s) = members := by
      rw [List.filter_append, filter_ne_self_of_not_mem members s hs]
      simp
    have hsnap : members.map (fun u => (u, getOpt (setK vsR s true) u)) =
        members.map (fun u => (u, getOpt vsR u)) :=
      List.map_congr_left (fun u hu => by
        rw [getOpt_setK_ne]
        exact fun e => hs (e ▸ hu))
    simp [if_neg hs, hv, getD, getOpt_setK_self, hoth, hsnap]
    have hall : ∀ a ∈ members, ¬a = s := fun a ha e => hs (e ▸ ha)
    have hfm : members.filter (fun u => !decide (u = s)) = members :=
      List.filter_eq_self.mpr (fun a ha => by simp [hall a ha])
    exact ⟨hall, by rw [hfm, hsnap], hall⟩
  · intro hs
    rw [dispatch_join]
    unfold joinRoom
    rw [hr]
    simp [if_pos hs, getD, hr, hv]

/-- Witness for C4: the fresh join of c into the two-member room, and the
repeated join of a into its one-member room (no duplicate entry). -/
theorem c4_join_existing_witness :
    dispatch stPair "c" "join-room" (EvPayload.pRoom "r") =
      some (⟨[("r", ["a", "b", "c"])],
             [("r", [("a", true), ("b", true), ("c", true)])],
             [("a", ["r"]), ("b", ["r"]), ("c", ["r"])]⟩,
            [⟨["c"], "all-users", Payload.allUsers ["a", "b"]⟩,
             ⟨["c"], "initial-video-states",
               Payload.initialVideoStates [("a", some true), ("b", some true)]⟩,
             ⟨["a", "b"], "user-joined", Payload.userJoined "c"⟩]) ∧
    dispatch stSolo "a" "join-room" (EvPayload.pRoom "r") =
      some (⟨[("r", ["a"])], [("r", [("a", true)])], [("a", ["r", "r"])]⟩,
            [⟨["a"], "all-users", Payload.allUsers []⟩,
             ⟨["a"], "initial-video-states", Payload.initialVideoStates []⟩,
             ⟨[], "user-joined", Payload.userJoined "a"⟩]) :=
  ⟨(c4_join_existing stPair "c" "r" ["a", "b"] [("a", true), ("b", true)]
      (by decide) (by decide)).1 (by decide),
   (c4_join_existing stSolo "a" "r" ["a"] [("a", true)]
      (by decide) (by decide)).2 (by decide)⟩

/-! ### Disconnect machinery -/

theorem not_mem_filter_ne_self (l : List String) (s : String) :
    s ∉ l.filter (fun u => u ≠ s) := by
  simp [List.mem_filter]

theorem roomsShrink_refl (s : String) (R : List (String × List String)) :
    roomsShrink s R R :=
  fun _ m' h => ⟨m', h, Or.inl rfl⟩

theorem roomsShrink_trans (s : String) {R R' R'' : List (String × List String)}
    (h1 : roomsShrink s R R') (h2 : roomsShrink s R' R'') : roomsShrink s R R'' := by
  intro rid m'' hm
  obtain ⟨m', hm', hc⟩ := h2 rid m'' hm
  obtain ⟨m, hm0, hc0⟩ := h1 rid m' hm'
  refine ⟨m, hm0, ?_⟩
  rcases hc with rfl | rfl
  · exact hc0
  · rcases hc0 with rfl | rfl
    · exact Or.inr rfl
    · exact Or.inr (filter_idem _ m)

theorem roomsShrink_noS (s : String) {R R' : List (String × List String)}
    (h : roomsShrink s R R') (hn : ∀ rid m, getOpt R rid = some m → s ∉ m) :
    ∀ rid m', getOpt R' rid = some m' → s ∉ m' := by
  intro rid m' hm' hs
  obtain ⟨m, hm, hc⟩ := h rid m' hm'
  rcases hc with rfl | rfl
  · exact hn rid m' hm hs
  · exact hn rid m hm (List.mem_of_mem_filter hs)

theorem roomsShrink_none (s : String) {R R' : List (String × List String)}
    (h : roomsShrink s R R') {rid : String} (hn : getOpt R rid = none) :
    getOpt R' rid = none := by
  cases hq : getOpt R' rid with
  | none => rfl
  | some m' =>
    obtain ⟨m, hm, _⟩ := h rid m' hq
    rw [hn] at hm
    cases hm

theorem gdStep_eq (s : String) (acc : ServerState × List Msg) (rid : String) :
    (gdStep s acc rid = acc ∧
      (getOpt acc.1.rooms rid = none ∨
        ∃ members, getOpt acc.1.rooms rid = some members ∧ s ∉ members)) ∨
    ∃ members, getOpt acc.1.rooms rid = some members ∧ s ∈ members ∧
      (((members.filter (fun u => u ≠ s)).isEmpty = true ∧
         gdStep s acc rid =
           (⟨delK (setK acc.1.rooms rid (members.filter (fun u => u ≠ s))) rid,
             delK (gdVs acc.1 s rid) rid, acc.1.joinCtx⟩,
            acc.2 ++ [⟨members.filter (fun u => u ≠ s), "user-disconnected",
                       Payload.userDisconnected s⟩])) ∨
       ((members.filter (fun u => u ≠ s)).isEmpty = false ∧
         gdStep s acc rid =
           (⟨setK acc.1.rooms rid (members.filter (fun u => u ≠ s)),
             gdVs acc.1 s rid, acc.1.joinCtx⟩,
            acc.2 ++ [⟨members.filter (fun u => u ≠ s), "user-disconnected",
                       Payload.userDisconnected s⟩]))) := by
  cases hk : getOpt acc.1.rooms rid with
  | none =>
    refine Or.inl ⟨?_, Or.inl rfl⟩
    unfold gdStep
    rw [hk]
  | some members =>
    by_cases hs : s ∈ members
    · refine Or.inr ⟨members, rfl, hs, ?_⟩
      by_cases he : (members.filter (fun u => u ≠ s)).isEmpty
      · refine Or.inl ⟨he, ?_⟩
        unfold gdStep
        rw [hk]
        simp only [if_pos hs, if_pos he]
      · refine Or.inr ⟨Bool.of_not_eq_true he, ?_⟩
        unfold gdStep
        rw [hk]
        simp only [if_pos hs, if_neg he]
    · refine Or.inl ⟨?_, Or.inr ⟨members, rfl, hs⟩⟩
      unfold gdStep
      rw [hk]
      simp only [if_neg hs]

theorem gdStep_ne (s : String) (acc : ServerState × List Msg) (k rid : String)
    (h : rid ≠ k) : getOpt (gdStep s acc k).1.rooms rid = getOpt acc.1.rooms rid := by
  rcases gdStep_eq s acc k with ⟨heq, _⟩ | ⟨members, hk, hs, ⟨he, heq⟩ | ⟨he, heq⟩⟩
  · rw [heq]
  · rw [heq]
    show getOpt (delK (setK acc.1.rooms k (members.filter (fun u => u ≠ s))) k) rid = _
    rw [getOpt_delK_ne _ _ _ h, getOpt_setK_ne _ _ _ _ h]
  · rw [heq]
    show getOpt (setK acc.1.rooms k (members.filter (fun u => u ≠ s))) rid = _
    rw [getOpt_setK_ne _ _ _ _ h]

theorem gdStep_shrink (s : String) (acc : ServerState × List Msg) (k : String) :
    roomsShrink s acc.1.rooms (gdStep s acc k).1.rooms := by
  intro rid m' hm'
  by_cases h : rid = k
  · subst h
    rcases gdStep_eq s acc rid with ⟨heq, _⟩ | ⟨members, hk, hs, ⟨he, heq⟩ | ⟨he, heq⟩⟩
    · rw [heq] at hm'
      exact ⟨m', hm', Or.inl rfl⟩
    · rw [heq] at hm'
      have h3 : getOpt (delK (setK acc.1.rooms rid
          (members.filter (fun u => u ≠ s))) rid) rid = some m' := hm'
      rw [getOpt_delK_self] at h3
      cases h3
    · rw [heq] at hm'
      have h3 : getOpt (setK acc.1.rooms rid
          (members.filter (fun u => u ≠ s))) rid = some m' := hm'
      rw [getOpt_setK_self] at h3
      injection h3 with h4
      exact ⟨members, hk, Or.inr h4.symm⟩
  · rw [gdStep_ne s acc k rid h] at hm'
    exact ⟨m', hm', Or.inl rfl⟩

theorem gd_fold_shrink (s : String) :
    ∀ (keys : List String) (acc : ServerState × List Msg),
      roomsShrink s acc.1.rooms ((keys.foldl (gdStep s) acc)).1.rooms := by
  intro keys
  induction keys with
  | nil => intro acc; exact roomsShrink_refl s _
  | cons k rest ih =>
    intro acc
    rw [List.foldl_cons]
    exact roomsShrink_trans s (gdStep_shrink s acc k) (ih (gdStep s acc k))

theorem gdStep_noS_at_k (s : String) (acc : ServerState × List Msg) (k : String) :
    ∀ m', getOpt (gdStep s acc k).1.rooms k = some m' → s ∉ m' := by
  intro m' hm'
  rcases gdStep_eq s acc k with ⟨heq, hin⟩ | ⟨members, hk, hs, ⟨he, heq⟩ | ⟨he, heq⟩⟩
  · rw [heq] at hm'
    rcases hin with hnone | ⟨members, hk2, hs2⟩
    · rw [hnone] at hm'
      cases hm'
    · rw [hk2] at hm'
      injection hm' with h2
      rw [← h2]
      exact hs2
  · rw [heq] at hm'
    have h3 : getOpt (delK (setK acc.1.rooms k
        (members.filter (fun u => u ≠ s))) k) k = some m' := hm'
    rw [getOpt_delK_self] at h3
    cases h3
  · rw [heq] at hm'
    have h3 : getOpt (setK acc.1.rooms k
        (members.filter (fun u => u ≠ s))) k = some m' := hm'
    rw [getOpt_setK_self] at h3
    injection h3 with h4
    rw [← h4]
    exact not_mem_filter_ne_self members s

theorem gd_fold_nomem (s : String) :
    ∀ (keys : List String) (acc : ServerState × List Msg),
      (∀ rid m, getOpt acc.1.rooms rid = some m → s ∈ m → rid ∈ keys) →
      ∀ rid m, getOpt ((keys.foldl (gdStep s) acc)).1.rooms rid = some m → s ∉ m := by
  intro keys
  induction keys with
  | nil =>
    intro acc hbase rid m hm hs
    exact absurd (hbase rid m hm hs) (List.not_mem_nil rid)
  | cons k rest ih =>
    intro acc hbase rid m hm
    rw [List.foldl_cons] at hm
    refine ih (gdStep s acc k) ?_ rid m hm
    intro rid' m' hm' hs'
    by_cases hk : rid' = k
    · subst hk
      exact absurd hs' (gdStep_noS_at_k s acc rid' m' hm')
    · rw [gdStep_ne s acc k rid' hk] at hm'
      exact (List.mem_cons.mp (hbase rid' m' hm' hs')).resolve_left hk

theorem gd_fold_id (s : String) (stX : ServerState) (msgs : List Msg)
    (h : ∀ rid m, getOpt stX.rooms rid = some m → s ∉ m) :
    ∀ keys : List String, keys.foldl (gdStep s) (stX, msgs) = (stX, msgs) := by
  intro keys
  induction keys with
  | nil => rfl
  | cons k rest ih =>
    rw [List.foldl_cons]
    have hstep : gdStep s (stX, msgs) k = (stX, msgs) := by
      rcases gdStep_eq s (stX, msgs) k with ⟨heq, _⟩ | ⟨members, hk, hs, _⟩
      · exact heq
      · exact absurd hs (h k members hk)
    rw [hstep]
    exact ih

theorem gdStep_deletes (s k : String) (acc : ServerState × List Msg) (m : List String)
    (hm : getOpt acc.1.rooms k = some m) (hsm : s ∈ m)
    (hf : m.filter (fun u => u ≠ s) = []) :
    getOpt (gdStep s acc k).1.rooms k = none := by
  rcases gdStep_eq s acc k with ⟨heq, hin⟩ | ⟨members, hk, hs, ⟨he, heq⟩ | ⟨he, heq⟩⟩
  · rcases hin with hnone | ⟨members, hk2, hs2⟩
    · rw [hnone] at hm
      cases hm
    · rw [hk2] at hm
      injection hm with h2
      exact absurd (h2 ▸ hsm) hs2
  · rw [heq]
    exact getOpt_delK_self _ k
  · rw [hk] at hm
    injection hm with h2
    rw [h2, hf] at he
    cases he

theorem gd_fold_delete (s rid : String) :
    ∀ (keys : List String) (acc : ServerState × List Msg),
      (getOpt acc.1.rooms rid = none ∨
        (rid ∈ keys ∧ ∃ m, getOpt acc.1.rooms rid = some m ∧ s ∈ m ∧
          m.filter (fun u => u ≠ s) = [])) →
      getOpt ((keys.foldl (gdStep s) acc)).1.rooms rid = none := by
  intro keys
  induction keys with
  | nil =>
    intro acc hc
    rcases hc with h | ⟨hmem, _⟩
    · exact h
    · exact absurd hmem (List.not_mem_nil rid)
  | cons k rest ih =>
    intro acc hc
    rw [List.foldl_cons]
    apply ih
    rcases hc with h | ⟨hmem, m, hm, hsm, hf⟩
    · exact Or.inl (roomsShrink_none s (gdStep_shrink s acc k) h)
    · by_cases hk : rid = k
      · subst hk
        exact Or.inl (gdStep_deletes s rid acc m hm hsm hf)
      · refine Or.inr ⟨(List.mem_cons.mp hmem).resolve_left hk, m, ?_, hsm, hf⟩
        rw [gdStep_ne s acc k rid hk]
        exact hm

theorem roomDisconnect_eq (rid : String) (st : ServerState) (s : String) :
    (roomDisconnect rid st s = some (st, []) ∧ getOpt st.rooms rid = none) ∨
    (roomDisconnect rid st s = none ∧
      ∃ members, getOpt st.rooms rid = some members ∧
        getOpt st.userVideoStates rid = none) ∨
    ∃ members vsR, getOpt st.rooms rid = some members ∧
      getOpt st.userVideoStates rid = some vsR ∧
      (((members.filter (fun u => u ≠ s)).isEmpty = true ∧
        roomDisconnect rid st s =
          some (⟨delK (setK st.rooms rid (members.filter (fun u => u ≠ s))) rid,
                 delK (setK st.userVideoStates rid (delK vsR s)) rid, st.joinCtx⟩,
                [⟨members.filter (fun u => u ≠ s), "user-disconnected",
                  Payload.userDisconnected s⟩])) ∨
       ((members.filter (fun u => u ≠ s)).isEmpty = false ∧
        roomDisconnect rid st s =
          some (⟨setK st.rooms rid (members.filter (fun u => u ≠ s)),
                 setK st.userVideoStates rid (delK vsR s), st.joinCtx⟩,
                [⟨members.filter (fun u => u ≠ s), "user-disconnected",
                  Payload.userDisconnected s⟩]))) := by
  cases hk : getOpt st.rooms rid with
  | none =>
    refine Or.inl ⟨?_, rfl⟩
    unfold roomDisconnect
    rw [hk]
  | some members =>
    cases hv : getOpt st.userVideoStates rid with
    | none =>
      refine Or.inr (Or.inl ⟨?_, members, rfl, rfl⟩)
      unfold roomDisconnect
      rw [hk, hv]
    | some vsR =>
      refine Or.inr (Or.inr ⟨members, vsR, rfl, rfl, ?_⟩)
      by_cases he : (members.filter (fun u => u ≠ s)).isEmpty
      · refine Or.inl ⟨he, ?_⟩
        unfold roomDisconnect
        rw [hk, hv]
        simp only [if_pos he]
      · refine Or.inr ⟨Bool.of_not_eq_true he, ?_⟩
        unfold roomDisconnect
        rw [hk, hv]
        simp only [if_neg he]

theorem rd_shrink (k : String) (st : ServerState) (s : String) (r' : ServerState × List Msg)
    (h : roomDisconnect k st s = some r') : roomsShrink s st.rooms r'.1.rooms := by
  rcases roomDisconnect_eq k st s with ⟨heq, _⟩ | ⟨heq, _⟩ |
    ⟨members, vsR, hk, hv, ⟨he, heq⟩ | ⟨he, heq⟩⟩
  · rw [heq] at h
    injection h with h1
    rw [← h1]
    exact roomsShrink_refl s st.rooms
  · rw [heq] at h
    cases h
  · rw [heq] at h
    injection h with h1
    rw [← h1]
    intro rid m' hm'
    by_cases hrk : rid = k
    · subst hrk
      have h3 : getOpt (delK (setK st.rooms rid
          (members.filter (fun u => u ≠ s))) rid) rid = some m' := hm'
      rw [getOpt_delK_self] at h3
      cases h3
    · have h3 : getOpt (delK (setK st.rooms k
          (members.filter (fun u => u ≠ s))) k) rid = some m' := hm'
      rw [getOpt_delK_ne _ _ _ hrk, getOpt_setK_ne _ _ _ _ hrk] at h3
      exact ⟨m', h3, Or.inl rfl⟩
  · rw [heq] at h
    injection h with h1
    rw [← h1]
    intro rid m' hm'
    by_cases hrk : rid = k
    · subst hrk
      have h3 : getOpt (setK st.rooms rid
          (members.filter (fun u => u ≠ s))) rid = some m' := hm'
      rw [getOpt_setK_self] at h3
      injection h3 with h4
      exact ⟨members, hk, Or.inr h4.symm⟩
    · have h3 : getOpt (setK st.rooms k
          (members.filter (fun u => u ≠ s))) rid = some m' := hm'
      rw [getOpt_setK_ne _ _ _ _ hrk] at h3
      exact ⟨m', h3, Or.inl rfl⟩

theorem foldl_rdFold_none (s : String) :
    ∀ l : List String, l.foldl (rdFold s) none = none := by
  intro l
  induction l with
  | nil => rfl
  | cons c rest ih =>
    rw [List.foldl_cons]
    exact ih

theorem rd_fold_some (s : String) :
    ∀ (ctxs : List String) (acc res : ServerState × List Msg),
      ctxs.foldl (rdFold s) (some acc) = some res →
      roomsShrink s acc.1.rooms res.1.rooms := by
  intro ctxs
  induction ctxs with
  | nil =>
    intro acc res h
    injection h with h1
    rw [← h1]
    exact roomsShrink_refl s _
  | cons c rest ih =>
    intro acc res h
    rw [List.foldl_cons] at h
    cases hrd : roomDisconnect c acc.1 s with
    | none =>
      have hstep : rdFold s (some acc) c = none := by
        show (match roomDisconnect c acc.1 s with
              | none => none
              | some r' => some (r'.1, acc.2 ++ r'.2)) = none
        rw [hrd]
      rw [hstep, foldl_rdFold_none] at h
      cases h
    | some r' =>
      have hstep : rdFold s (some acc) c = some (r'.1, acc.2 ++ r'.2) := by
        show (match roomDisconnect c acc.1 s with
              | none => none
              | some r2 => some (r2.1, acc.2 ++ r2.2)) = some (r'.1, acc.2 ++ r'.2)
        rw [hrd]
      rw [hstep] at h
      exact roomsShrink_trans s (rd_shrink c acc.1 s r' hrd)
        (ih (r'.1, acc.2 ++ r'.2) res h)

theorem handleDisconnect_eq (st : ServerState) (s : String) :
    (handleDisconnect st s = none ∧
      (getD st.joinCtx s []).foldl (rdFold s)
        (some ((st.rooms.map Prod.fst).foldl (gdStep s) (st, []))) = none) ∨
    ∃ r, (getD st.joinCtx s []).foldl (rdFold s)
          (some ((st.rooms.map Prod.fst).foldl (gdStep s) (st, []))) = some r ∧
        handleDisconnect st s =
          some (⟨r.1.rooms, r.1.userVideoStates, delK r.1.joinCtx s⟩, r.2) := by
  cases hf : (getD st.joinCtx s []).foldl (rdFold s)
      (some ((st.rooms.map Prod.fst).foldl (gdStep s) (st, []))) with
  | none =>
    refine Or.inl ⟨?_, rfl⟩
    unfold handleDisconnect
    rw [hf]
  | some r =>
    refine Or.inr ⟨r, rfl, ?_⟩
    unfold handleDisconnect
    rw [hf]

theorem hd_shrink (st : ServerState) (s : String) (st' : ServerState) (msgs : List Msg)
    (h : handleDisconnect st s = some (st', msgs)) : roomsShrink s st.rooms st'.rooms := by
  rcases handleDisconnect_eq st s with ⟨hnone, _⟩ | ⟨r, hf, heq⟩
  · rw [h] at hnone
    cases hnone
  · rw [heq] at h
    injection h with h1
    injection h1 with h2 h3
    have hrooms : st'.rooms = r.1.rooms := by rw [← h2]
    rw [hrooms]
    exact roomsShrink_trans s (gd_fold_shrink s (st.rooms.map Prod.fst) (st, []))
      (rd_fold_some s (getD st.joinCtx s []) _ r hf)

theorem hd_noS (st : ServerState) (s : String) (st' : ServerState) (msgs : List Msg)
    (h : handleDisconnect st s = some (st', msgs)) :
    ∀ rid m, getOpt st'.rooms rid = some m → s ∉ m := by
  rcases handleDisconnect_eq st s with ⟨hnone, _⟩ | ⟨r, hf, heq⟩
  · rw [h] at hnone
    cases hnone
  · rw [heq] at h
    injection h with h1
    injection h1 with h2 h3
    have hrooms : st'.rooms = r.1.rooms := by rw [← h2]
    have hgd : ∀ rid m,
        getOpt ((st.rooms.map Prod.fst).foldl (gdStep s) (st, [])).1.rooms rid = some m →
        s ∉ m :=
      gd_fold_nomem s (st.rooms.map Prod.fst) (st, [])
        (fun rid m hm _ => mem_keys_of_getOpt st.rooms rid m hm)
    have hfin := roomsShrink_noS s (rd_fold_some s (getD st.joinCtx s []) _ r hf) hgd
    intro rid m hm
    rw [hrooms] at hm
    exact hfin rid m hm

theorem hd_ctx (st : ServerState) (s : String) (st' : ServerState) (msgs : List Msg)
    (h : handleDisconnect st s = some (st', msgs)) : getOpt st'.joinCtx s = none := by
  rcases handleDisconnect_eq st s with ⟨hnone, _⟩ | ⟨r, hf, heq⟩
  · rw [h] at hnone
    cases hnone
  · rw [heq] at h
    injection h with h1
    injection h1 with h2 h3
    have hctx : st'.joinCtx = delK r.1.joinCtx s := by rw [← h2]
    rw [hctx]
    exact getOpt_delK_self _ s

theorem vscClosure_rooms (rid s : String) (b : Bool) (st : ServerState)
    (r' : ServerState × List Msg) (h : vscClosure rid s b st = some r') :
    r'.1.rooms = st.rooms := by
  unfold vscClosure at h
  cases hv : getOpt st.userVideoStates rid with
  | none =>
    rw [hv] at h
    cases h
  | some vsR =>
    rw [hv] at h
    injection h with h1
    rw [← h1]

theorem foldl_vscFold_none (s : String) (b : Bool) :
    ∀ l : List String, l.foldl (vscFold s b) none = none := by
  intro l
  induction l with
  | nil => rfl
  | cons c rest ih =>
    rw [List.foldl_cons]
    exact ih

theorem vsc_fold_rooms (s : String) (b : Bool) :
    ∀ (l : List String) (acc res : ServerState × List Msg),
      l.foldl (vscFold s b) (some acc) = some res → res.1.rooms = acc.1.rooms := by
  intro l
  induction l with
  | nil =>
    intro acc res h
    injection h with h1
    rw [← h1]
  | cons c rest ih =>
    intro acc res h
    rw [List.foldl_cons] at h
    cases hc : vscClosure c s b acc.1 with
    | none =>
      have hstep : vscFold s b (some acc) c = none := by
        show (match vscClosure c s b acc.1 with
              | none => none
              | some r' => some (r'.1, acc.2 ++ r'.2)) = none
        rw [hc]
      rw [hstep, foldl_vscFold_none] at h
      cases h
    | some r' =>
      have hstep : vscFold s b (some acc) c = some (r'.1, acc.2 ++ r'.2) := by
        show (match vscClosure c s b acc.1 with
              | none => none
              | some r2 => some (r2.1, acc.2 ++ r2.2)) = some (r'.1, acc.2 ++ r'.2)
        rw [hc]
      rw [hstep] at h
      have := ih (r'.1, acc.2 ++ r'.2) res h
      rw [this]
      exact vscClosure_rooms c s b acc.1 r' hc

theorem hvsc_rooms (st : ServerState) (s : String) (b : Bool) (st' : ServerState)
    (ms : List Msg) (h : handleVideoStateChange st s b = some (st', ms)) :
    st'.rooms = st.rooms := by
  unfold handleVideoStateChange at h
  exact vsc_fold_rooms s b (getD st.joinCtx s []) (st, []) (st', ms) h

/-! ### Claim C1 -/

/-- C1 counterexample: when socket b (a member of room r alongside a, with
one successful join-room) disconnects, the general disconnect handler and
the room-scoped disconnect handler each broadcast user-disconnected, so the
remaining member a is sent the broadcast twice, not exactly once. -/
theorem c1_double_broadcast_cex :
    handleDisconnect stPair "b" =
      some (stSolo, [⟨["a"], "user-disconnected", Payload.userDisconnected "b"⟩,
                     ⟨["a"], "user-disconnected", Payload.userDisconnected "b"⟩]) := by
  decide

/-- C1 amended: the disconnect cleanup is idempotent at the state level —
after disconnect processing completes, running the whole cleanup again for
the same id is a no-op that emits no message and raises no error — but
within a single disconnect the two registered paths each broadcast
user-disconnected, so remaining members receive it once per path. -/
theorem c1_leave_idempotent_state (st : ServerState) (s : String) (st' : ServerState)
    (msgs : List Msg) (h : handleDisconnect st s = some (st', msgs)) :
    handleDisconnect st' s = some (st', []) := by
  have hnoS := hd_noS st s st' msgs h
  have hctx := hd_ctx st s st' msgs h
  have hgd : (st'.rooms.map Prod.fst).foldl (gdStep s) (st', []) = (st', []) :=
    gd_fold_id s st' [] hnoS _
  have hctxD : getD st'.joinCtx s [] = [] := by
    rw [getD, hctx]
    rfl
  unfold handleDisconnect
  rw [hgd, hctxD]
  show some ((⟨st'.rooms, st'.userVideoStates, delK st'.joinCtx s⟩ : ServerState),
             ([] : List Msg)) = some (st', [])
  rw [delK_eq_self_of_none _ _ hctx]

/-- Witness for C1 amended: disconnecting b again after its disconnect from
the two-member room changes nothing and emits nothing. -/
theorem c1_leave_idempotent_state_witness :
    handleDisconnect stSolo "b" = some (stSolo, []) :=
  c1_leave_idempotent_state stPair "b" stSolo
    [⟨["a"], "user-disconnected", Payload.userDisconnected "b"⟩,
     ⟨["a"], "user-disconnected", Payload.userDisconnected "b"⟩] (by decide)

theorem hd_deletes (st : ServerState) (s : String) (st' : ServerState) (msgs : List Msg)
    (rid : String) (m : List String)
    (h : handleDisconnect st s = some (st', msgs))
    (hm : getOpt st.rooms rid = some m) (hne : m ≠ [])
    (hf : m.filter (fun u => u ≠ s) = []) :
    getOpt st'.rooms rid = none := by
  rcases handleDisconnect_eq st s with ⟨hnone, _⟩ | ⟨r, hfold, heq⟩
  · rw [h] at hnone
    cases hnone
  · rw [heq] at h
    injection h with h1
    injection h1 with h2 h3
    have hrooms : st'.rooms = r.1.rooms := by rw [← h2]
    have hsm : s ∈ m := mem_of_filter_ne_nil_and_empty m s hne hf
    have hg : getOpt ((st.rooms.map Prod.fst).foldl (gdStep s) (st, [])).1.rooms rid = none :=
      gd_fold_delete s rid (st.rooms.map Prod.fst) (st, [])
        (Or.inr ⟨mem_keys_of_getOpt st.rooms rid m hm, m, hm, hsm, hf⟩)
    have hr := roomsShrink_none s (rd_fold_some s (getD st.joinCtx s []) _ r hfold) hg
    rw [hrooms]
    exact hr

/-! ### Trace-level analysis of the rooms object -/

theorem joinRoom_rooms (st : ServerState) (s0 rid : String) (st' : ServerState)
    (ms : List Msg) (h : joinRoom st s0 rid = some (st', ms)) :
    st'.rooms = st.rooms ∨
    ∃ members, getOpt st.rooms rid = some members ∧ s0 ∉ members ∧
      st'.rooms = setK st.rooms rid (members ++ [s0]) := by
  unfold joinRoom at h
  cases hr : getOpt st.rooms rid with
  | none =>
    rw [hr] at h
    injection h with h1
    injection h1 with h2 h3
    exact Or.inl (by rw [← h2])
  | some members =>
    rw [hr] at h
    by_cases hs : s0 ∈ members
    · simp only [if_pos hs] at h
      injection h with h1
      injection h1 with h2 h3
      exact Or.inl (by rw [← h2])
    · simp only [if_neg hs] at h
      cases hv : getOpt st.userVideoStates rid with
      | none =>
        rw [hv] at h
        exact absurd h (by simp)
      | some vsR =>
        rw [hv] at h
        simp only [] at h
        injection h with h1
        injection h1 with h2 h3
        refine Or.inr ⟨members, rfl, hs, ?_⟩
        rw [← h2]

theorem dispatch_rooms_cases (st : ServerState) (s0 ev : String) (p : EvPayload)
    (st' : ServerState) (ms : List Msg)
    (h : dispatch st s0 ev p = some (st', ms)) :
    st'.rooms = st.rooms ∨
    (∃ rid0, getOpt st.rooms rid0 = none ∧ st'.rooms = setK st.rooms rid0 []) ∨
    (∃ rid0 members, ev = "join-room" ∧ p = EvPayload.pRoom rid0 ∧
       getOpt st.rooms rid0 = some members ∧ s0 ∉ members ∧
       st'.rooms = setK st.rooms rid0 (members ++ [s0])) := by
  unfold dispatch at h
  split_ifs at h with h1 h2 h3 h4 h5 h6 h7 h8
  · cases p <;>
      (injection h with h1'; injection h1' with h2' h3'; exact Or.inl (by rw [← h2']))
  · cases p with
    | pRoom rid =>
      unfold createRoom at h
      by_cases hk : hasKey st.rooms rid
      · simp only [if_pos hk] at h
        injection h with h1'
        injection h1' with h2' h3'
        exact Or.inl (by rw [← h2'])
      · simp only [if_neg hk] at h
        injection h with h1'
        injection h1' with h2' h3'
        refine Or.inr (Or.inl ⟨rid, ?_, by rw [← h2']⟩)
        cases hq : getOpt st.rooms rid with
        | none => rfl
        | some v => exact absurd (by simp [hasKey, hq]) hk
    | pTarget t d =>
      injection h with h1'
      injection h1' with h2' h3'
      exact Or.inl (by rw [← h2'])
    | pVideo b =>
      injection h with h1'
      injection h1' with h2' h3'
      exact Or.inl (by rw [← h2'])
    | pMidi a b c d e =>
      injection h with h1'
      injection h1' with h2' h3'
      exact Or.inl (by rw [← h2'])
  · cases p with
    | pRoom rid =>
      rcases joinRoom_rooms st s0 rid st' ms h with heq | ⟨members, hsome, hnm, heq⟩
      · exact Or.inl heq
      · exact Or.inr (Or.inr ⟨rid, members, h3, rfl, hsome, hnm, heq⟩)
    | pTarget t d =>
      injection h with h1'
      injection h1' with h2' h3'
      exact Or.inl (by rw [← h2'])
    | pVideo b =>
      injection h with h1'
      injection h1' with h2' h3'
      exact Or.inl (by rw [← h2'])
    | pMidi a b c d e =>
      injection h with h1'
      injection h1' with h2' h3'
      exact Or.inl (by rw [← h2'])
  · cases p <;>
      (injection h with h1'; injection h1' with h2' h3'; exact Or.inl (by rw [← h2']))
  · cases p <;>
      (injection h with h1'; injection h1' with h2' h3'; exact Or.inl (by rw [← h2']))
  · cases p <;>
      (injection h with h1'; injection h1' with h2' h3'; exact Or.inl (by rw [← h2']))
  · cases p with
    | pVideo b => exact Or.inl (hvsc_rooms st s0 b st' ms h)
    | pRoom rid =>
      injection h with h1'
      injection h1' with h2' h3'
      exact Or.inl (by rw [← h2'])
    | pTarget t d =>
      injection h with h1'
      injection h1' with h2' h3'
      exact Or.inl (by rw [← h2'])
    | pMidi a b c d e =>
      injection h with h1'
      injection h1' with h2' h3'
      exact Or.inl (by rw [← h2'])
  · cases p <;>
      (injection h with h1'; injection h1' with h2' h3'; exact Or.inl (by rw [← h2']))
  · injection h with h1'
    injection h1' with h2' h3'
    exact Or.inl (by rw [← h2'])

theorem inRoomB_true (st : ServerState) (s rid : String) (h : inRoomB st s rid = true) :
    ∃ m, getOpt st.rooms rid = some m ∧ s ∈ m := by
  unfold inRoomB at h
  cases hq : getOpt st.rooms rid with
  | none =>
    simp only [hq] at h
    cases h
  | some m =>
    simp only [hq] at h
    exact ⟨m, rfl, by simpa using h⟩

theorem step_member (st : ServerState) (op : Op) (st' : ServerState) (ms : List Msg)
    (h : step st op = some (st', ms)) (s rid : String) (m' : List String)
    (hm : getOpt st'.rooms rid = some m') (hs : s ∈ m') :
    (∃ m, getOpt st.rooms rid = some m ∧ s ∈ m) ∨ opJoinOf s op = some rid := by
  cases op with
  | disc s0 =>
    left
    obtain ⟨m, hm0, hc⟩ := hd_shrink st s0 st' ms h rid m' hm
    rcases hc with h1 | h1
    · exact ⟨m, hm0, h1 ▸ hs⟩
    · exact ⟨m, hm0, List.mem_of_mem_filter (h1 ▸ hs)⟩
  | msg s0 ev p =>
    rcases dispatch_rooms_cases st s0 ev p st' ms h with heq |
      ⟨rid0, hnone, heq⟩ | ⟨rid0, members, hev, hp, hsome, hnm, heq⟩
    · left
      rw [heq] at hm
      exact ⟨m', hm, hs⟩
    · rw [heq] at hm
      by_cases hr : rid = rid0
      · subst hr
        rw [getOpt_setK_self] at hm
        injection hm with h2
        rw [← h2] at hs
        exact absurd hs (List.not_mem_nil s)
      · rw [getOpt_setK_ne _ _ _ _ hr] at hm
        left
        exact ⟨m', hm, hs⟩
    · rw [heq] at hm
      by_cases hr : rid = rid0
      · subst hr
        rw [getOpt_setK_self] at hm
        injection hm with h2
        rw [← h2] at hs
        rcases List.mem_append.mp hs with hin | hin
        · left
          exact ⟨members, hsome, hin⟩
        · right
          have hss : s = s0 := List.mem_singleton.mp hin
          subst hss
          subst hev
          subst hp
          simp [opJoinOf]
      · rw [getOpt_setK_ne _ _ _ _ hr] at hm
        left
        exact ⟨m', hm, hs⟩

theorem step_nodup (st : ServerState) (op : Op) (st' : ServerState) (ms : List Msg)
    (h : step st op = some (st', ms))
    (hnd : ∀ rid m, getOpt st.rooms rid = some m → m.Nodup) :
    ∀ rid m', getOpt st'.rooms rid = some m' → m'.Nodup := by
  cases op with
  | disc s0 =>
    intro rid m' hm
    obtain ⟨m, hm0, hc⟩ := hd_shrink st s0 st' ms h rid m' hm
    rcases hc with h1 | h1
    · rw [h1]
      exact hnd rid m hm0
    · rw [h1]
      exact List.Nodup.filter _ (hnd rid m hm0)
  | msg s0 ev p =>
    rcases dispatch_rooms_cases st s0 ev p st' ms h with heq |
      ⟨rid0, hnone, heq⟩ | ⟨rid0, members, hev, hp, hsome, hnm, heq⟩
    · intro rid m' hm
      rw [heq] at hm
      exact hnd rid m' hm
    · intro rid m' hm
      rw [heq] at hm
      by_cases hr : rid = rid0
      · subst hr
        rw [getOpt_setK_self] at hm
        injection hm with h2
        rw [← h2]
        exact List.nodup_nil
      · rw [getOpt_setK_ne _ _ _ _ hr] at hm
        exact hnd rid m' hm
    · intro rid m' hm
      rw [heq] at hm
      by_cases hr : rid = rid0
      · subst hr
        rw [getOpt_setK_self] at hm
        injection hm with h2
        rw [← h2]
        exact nodup_append_single members s0 (hnd rid members hsome) hnm
      · rw [getOpt_setK_ne _ _ _ _ hr] at hm
        exact hnd rid m' hm

theorem runOps_member (s rid : String) :
    ∀ (ops : List Op) (st st' : ServerState), runOps st ops = some st' →
      ∀ m', getOpt st'.rooms rid = some m' → s ∈ m' →
      (∃ m, getOpt st.rooms rid = some m ∧ s ∈ m) ∨ rid ∈ sentJoins s ops := by
  intro ops
  induction ops with
  | nil =>
    intro st st' h m' hm hs
    injection h with h1
    subst h1
    exact Or.inl ⟨m', hm, hs⟩
  | cons op rest ih =>
    intro st st' h m' hm hs
    unfold runOps at h
    cases hstep : step st op with
    | none =>
      rw [hstep] at h
      cases h
    | some r =>
      rw [hstep] at h
      rcases ih r.1 st' h m' hm hs with ⟨m1, hm1, hs1⟩ | hjoin
      · have hstep2 : step st op = some (r.1, r.2) := by rw [hstep]
        rcases step_member st op r.1 r.2 hstep2 s rid m1 hm1 hs1 with hex0 | hop
        · exact Or.inl hex0
        · right
          unfold sentJoins
          rw [List.filterMap_cons, hop]
          exact List.mem_cons_self _ _
      · right
        unfold sentJoins at hjoin ⊢
        rw [List.filterMap_cons]
        cases hop : opJoinOf s op with
        | none => exact hjoin
        | some b => exact List.mem_cons_of_mem b hjoin

theorem runOps_nodup :
    ∀ (ops : List Op) (st st' : ServerState), runOps st ops = some st' →
      (∀ rid m, getOpt st.rooms rid = some m → m.Nodup) →
      ∀ rid m', getOpt st'.rooms rid = some m' → m'.Nodup := by
  intro ops
  induction ops with
  | nil =>
    intro st st' h hnd
    injection h with h1
    subst h1
    exact hnd
  | cons op rest ih =>
    intro st st' h hnd
    unfold runOps at h
    cases hstep : step st op with
    | none =>
      rw [hstep] at h
      cases h
    | some r =>
      rw [hstep] at h
      have hstep2 : step st op = some (r.1, r.2) := by rw [hstep]
      exact ih r.1 st' h (step_nodup st op r.1 r.2 hstep2 hnd)

/-! ### Claim C5 -/

/-- C5 counterexample: from the fresh server, x creates rooms a and b and
joins both; in the reached state x is simultaneously in the member lists of
two distinct rooms (join-room never removes the sender from other rooms). -/
theorem c5_two_rooms_cex :
    runOps initState opsTwoJoins =
      some ⟨[("a", ["x"]), ("b", ["x"])],
            [("a", [("x", true)]), ("b", [("x", true)])],
            [("x", ["a", "b"])]⟩ ∧
    inRoomB ⟨[("a", ["x"]), ("b", ["x"])],
             [("a", [("x", true)]), ("b", [("x", true)])],
             [("x", ["a", "b"])]⟩ "x" "a" = true ∧
    inRoomB ⟨[("a", ["x"]), ("b", ["x"])],
             [("a", [("x", true)]), ("b", [("x", true)])],
             [("x", ["a", "b"])]⟩ "x" "b" = true ∧
    ("a" : String) ≠ "b" := by
  decide

/-- C5 amended: the at-most-one-room invariant holds exactly for connections
that only ever named a single roomId in their join-room messages: in every
reachable state, the rooms whose member list contains s all carry the single
roomId s joined; a connection that sent join-room for two different roomIds
is in both rooms' member lists. -/
theorem c5_single_join_single_room (ops : List Op) (st : ServerState) (s : String)
    (hrun : runOps initState ops = some st)
    (huniq : ∀ r1 ∈ sentJoins s ops, ∀ r2 ∈ sentJoins s ops, r1 = r2)
    (r1 r2 : String) (h1 : inRoomB st s r1 = true) (h2 : inRoomB st s r2 = true) :
    r1 = r2 := by
  obtain ⟨m1, hm1, hs1⟩ := inRoomB_true st s r1 h1
  obtain ⟨m2, hm2, hs2⟩ := inRoomB_true st s r2 h2
  rcases runOps_member s r1 ops initState st hrun m1 hm1 hs1 with ⟨m0, hm0, _⟩ | hj1
  · simp [initState, getOpt] at hm0
  rcases runOps_member s r2 ops initState st hrun m2 hm2 hs2 with ⟨m0, hm0, _⟩ | hj2
  · simp [initState, getOpt] at hm0
  exact huniq r1 hj1 r2 hj2

/-- Witness for C5 amended: after the one-room trace (x and y create and join
room a only), x is in no other room, here room b. -/
theorem c5_single_join_single_room_witness :
    inRoomB ⟨[("a", ["x", "y"])], [("a", [("x", true), ("y", true)])],
             [("x", ["a"]), ("y", ["a"])]⟩ "x" "b" = false := by
  cases hb : inRoomB ⟨[("a", ["x", "y"])], [("a", [("x", true), ("y", true)])],
      [("x", ["a"]), ("y", ["a"])]⟩ "x" "b" with
  | false => rfl
  | true =>
    exact absurd
      (c5_single_join_single_room opsOneRoom
        ⟨[("a", ["x", "y"])], [("a", [("x", true), ("y", true)])],
         [("x", ["a"]), ("y", ["a"])]⟩ "x" (by decide) (by decide) "b" "a" hb (by decide))
      (by decide)

/-! ### Claim C8 -/

/-- C8 counterexample: create-room alone produces a room that is present in
the registry with zero members and persists (no join, count zero), refuting
that a room is present iff its join-minus-leave count is nonzero. -/
theorem c8_empty_room_persists_cex :
    runOps initState [Op.msg "x" "create-room" (EvPayload.pRoom "abc")] =
      some ⟨[("abc", [])], [("abc", [])], []⟩ ∧
    getOpt (⟨[("abc", [])], [("abc", [])], []⟩ : ServerState).rooms "abc" = some [] := by
  decide

/-- C8 amended: in every reachable state each room's member list is
duplicate-free (so its size is the number of distinct currently joined ids),
and a room whose member list is emptied by a disconnect is deleted in that
same disconnect; but a room created via create-room and never joined persists
with an empty member list, so presence is not equivalent to a nonzero count. -/
theorem c8_members_nodup_and_emptied_deleted :
    (∀ (ops : List Op) (st : ServerState), runOps initState ops = some st →
       ∀ rid m, getOpt st.rooms rid = some m → m.Nodup) ∧
    (∀ (st : ServerState) (s : String) (st' : ServerState) (msgs : List Msg)
       (rid : String) (m : List String),
       handleDisconnect st s = some (st', msgs) →
       getOpt st.rooms rid = some m → m ≠ [] → m.filter (fun u => u ≠ s) = [] →
       getOpt st'.rooms rid = none) := by
  constructor
  · intro ops st hrun rid m hm
    refine runOps_nodup ops initState st hrun ?_ rid m hm
    intro rid0 m0 hm0
    simp [initState, getOpt] at hm0
  · intro st s st' msgs rid m h hm hne hf
    exact hd_deletes st s st' msgs rid m h hm hne hf

/-- Witness for C8 amended: the member list of room a after the one-room
trace is duplicate-free, and disconnecting the sole member of stSolo leaves
room r absent. -/
theorem c8_members_nodup_and_emptied_deleted_witness :
    List.Nodup ["x", "y"] ∧
    getOpt (⟨[], [], []⟩ : ServerState).rooms "r" = none :=
  ⟨c8_members_nodup_and_emptied_deleted.1 opsOneRoom
     ⟨[("a", ["x", "y"])], [("a", [("x", true), ("y", true)])],
      [("x", ["a"]), ("y", ["a"])]⟩ (by decide) "a" ["x", "y"] (by decide),
   c8_members_nodup_and_emptied_deleted.2 stSolo "a" ⟨[], [], []⟩
     [⟨[], "user-disconnected", Payload.userDisconnected "a"⟩] "r" ["a"]
     (by decide) (by decide) (by decide) (by decide)⟩
